import Mathlib

/-!
Verification of the text-representation core and classifier-config module of
the mindmeld workbench repository.

The repository's `mmworkbench/core.py` (Query, Span, Entity model, text
normalization and index transformation) is not present in the source tree;
only its test suite is.  Those components are therefore modelled from the
natural-language specification, and every such definition carries a doc
comment beginning `Modelled from the spec:`.  The classifier-configuration
module `mmworkbench/components/_config.py` is present and is embedded
directly from the source.
-/

/-- Modelled from the spec: error kinds of the core (spec section 7), for the
missing `mmworkbench/core.py`. -/
inductive Err where
  | outOfRangeIndex : Err
  | invalidSpan : Err
  | resolverFailure : Err
  | malformedEntityType : Err
deriving DecidableEq

/-- Modelled from the spec: the enumerated text-form tag (RAW, PROCESSED,
NORMALIZED) of the missing `mmworkbench/core.py`. -/
inductive TextForm where
  | raw : TextForm
  | processed : TextForm
  | normalized : TextForm
deriving DecidableEq

/-- Modelled from the spec: the `Span` value type of the missing
`mmworkbench/core.py`: an inclusive integer interval. -/
structure Span where
  start : Nat
  «end» : Nat
deriving DecidableEq

/-- Modelled from the spec: iterating a Span produces the inclusive integer
sequence `start, start+1, ..., end` (the `__iter__` of the missing
`mmworkbench/core.py`). -/
def Span.iter (s : Span) : List Nat :=
  List.range' s.start (s.«end» + 1 - s.start)

/-- Modelled from the spec: the resolved value payload of an `Entity`; either a
plain string or a dictionary of string fields (as produced by the system-entity
resolver). -/
inductive EVal where
  | s : String → EVal
  | dict : List (String × String) → EVal
deriving DecidableEq

/-- Modelled from the spec: the `Entity` value object of the missing
`mmworkbench/core.py`, with full structural equality over all fields. -/
structure Entity where
  text : String
  entity_type : String
  role : Option String
  value : Option EVal
  display_text : Option String
deriving DecidableEq

/-- Modelled from the spec: the `QueryEntity` value object of the missing
`mmworkbench/core.py`: a type triple, a raw-form span, a normalized-form span
and an `Entity` payload. -/
structure QueryEntity where
  entity_type : String × String × String
  span : Span
  normalized_span : Span
  entity : Entity
deriving DecidableEq

/-- Modelled from the spec: the `NestedEntity` value object of the missing
`mmworkbench/core.py`: extends `QueryEntity`'s contract with an enclosing
parent span, which supplies context only and is not part of equality. -/
structure NestedEntity where
  entity_type : String × String × String
  span : Span
  normalized_span : Span
  entity : Entity
  parent_span : Option Span := none
deriving DecidableEq

/-- Modelled from the spec: the two closely related entity representations,
as a tagged sum, over which cross-variant equality is defined. -/
inductive AnyEntity where
  | qe : QueryEntity → AnyEntity
  | ne : NestedEntity → AnyEntity

/-- Modelled from the spec: the shared comparison key of `QueryEntity` and
`NestedEntity`: the type triple, the normalized-form span and the payload
`Entity` (spec sections 3 and 4.4); the parent span is excluded. -/
def entityKey : AnyEntity → (String × String × String) × Span × Entity
  | .qe e => (e.entity_type, e.normalized_span, e.entity)
  | .ne e => (e.entity_type, e.normalized_span, e.entity)

/-- Modelled from the spec: equality of entity objects (`__eq__`), a free
comparison over the shared key, identical regardless of which concrete
variant either operand is. -/
def entityEq (a b : AnyEntity) : Bool :=
  entityKey a == entityKey b

/-- Modelled from the spec: disequality of entity objects (`__ne__`), the
negation of `entityEq`. -/
def entityNe (a b : AnyEntity) : Bool :=
  !(entityEq a b)

/-- The apostrophe character. -/
def apos : Char := Char.ofNat 39

/-- Modelled from the spec: character classes retained by normalization:
letters and digits (lowercased). -/
def isAlnumChar (c : Char) : Bool := c.isAlpha || c.isDigit

/-- Modelled from the spec: per-character normalization decision of the
missing text normalizer, in neighbor context.  Letters and digits are kept
lowercased; the ampersand and apostrophes inside possessives are preserved;
whitespace is kept (as a plain space, subject to later collapsing); all other
punctuation/special characters are removed. -/
def classifyChar (prev next : Option Char) (c : Char) : Option Char :=
  if isAlnumChar c then some c.toLower
  else if c = '&' then some c
  else if c = apos ∧ (prev.any Char.isAlpha) ∧ (next.any Char.isAlpha) then some c
  else if c.isWhitespace then some ' '
  else none

/-- Modelled from the spec: applies `classifyChar` to every character of the
source, threading the previous character. -/
def classifyGo (prev : Option Char) : List Char → List (Option Char)
  | [] => []
  | c :: rest => classifyChar prev rest.head? c :: classifyGo (some c) rest

/-- Modelled from the spec: whether some retained non-space character remains
in the rest of the classified source (used to drop trailing spaces). -/
def hasFutureContent (l : List (Option Char)) : Bool :=
  l.any (fun o => match o with | some c => c ≠ ' ' | none => false)

/-- Modelled from the spec: space resolution of the missing text normalizer:
collapse whitespace runs to single spaces and trim both ends.  A space is kept
only if a retained non-space character precedes it (the last emission is not a
space) and some retained non-space character follows it. -/
def resolveSpaces (lastKept : Option Char) : List (Option Char) → List (Option Char)
  | [] => []
  | none :: rest => none :: resolveSpaces lastKept rest
  | some c :: rest =>
    if c = ' ' then
      if (lastKept.any (fun k => k ≠ ' ')) && hasFutureContent rest then
        some ' ' :: resolveSpaces (some ' ') rest
      else
        none :: resolveSpaces lastKept rest
    else
      some c :: resolveSpaces (some c) rest

/-- Modelled from the spec: the per-character emission table of the missing
text normalizer: position `i` holds `some c` if source character `i` is
retained as `c` in the normalized form, and `none` if it is deleted. -/
def emitsOf (cs : List Char) : List (Option Char) :=
  resolveSpaces none (classifyGo none cs)

/-- Modelled from the spec: the normalized text is the sequence of retained
(transformed) characters. -/
def normalizedOf (cs : List Char) : List Char :=
  (emitsOf cs).filterMap id

/-- Modelled from the spec: number of retained characters in a classified
list (the length of the normalized text it produces). -/
def countKept (l : List (Option Char)) : Nat :=
  l.countP (fun o => o.isSome)

/-- Modelled from the spec: the `Query` object of the missing
`mmworkbench/core.py`.  It owns the raw text and the request-time context;
the processed/normalized derivatives and the offset maps are deterministic
functions of the raw text (exposed below as functions of the Query), and the
system-entity candidates are populated at construction. -/
structure Query where
  text : List Char
  time_zone : Option String
  timestamp : Option Nat
  system_entity_candidates : List QueryEntity

/-- Modelled from the spec: the PROCESSED form; light cleanup that the test
suite pins to the identity on the raw text. -/
def Query.processed_text (q : Query) : List Char := q.text

/-- Modelled from the spec: the PROCESSED-to-NORMALIZED emission table of a
query. -/
def Query.emits (q : Query) : List (Option Char) := emitsOf q.text

/-- Modelled from the spec: the NORMALIZED form of a query's text. -/
def Query.normalized_text (q : Query) : List Char := normalizedOf q.text

/-- Modelled from the spec: the character-count bound of each text form of a
query (the RAW and PROCESSED forms coincide). -/
def formLength (q : Query) : TextForm → Nat
  | .raw => q.text.length
  | .processed => q.text.length
  | .normalized => q.normalized_text.length

/-- Modelled from the spec: the forward offset map PROCESSED -> NORMALIZED.
Every produced character records the source index it originated from; a
deleted source character maps to the destination index of the nearest
following retained character (the end-of-string index if none follows).
Both cases equal the number of retained characters strictly before `i`. -/
def forwardIdx (q : Query) (i : Nat) : Nat :=
  countKept (q.emits.take i)

/-- Modelled from the spec: the backward offset map NORMALIZED -> PROCESSED.
When multiple source indices map to one destination index, the leftmost
candidate source index is returned (deterministic tie-break). -/
def backwardIdx (q : Query) (j : Nat) : Option Nat :=
  (List.range q.text.length).find? (fun i => forwardIdx q i == j)

/-- Modelled from the spec: `Query.transform_index`: translate a character
index between two text forms by table lookup (RAW and PROCESSED are related
by the identity; RAW/PROCESSED to NORMALIZED composes through the forward
table, the reverse through the leftmost-candidate backward table).  Fails
with an OutOfRange error exactly when the index lies outside the bounds of
the source form. -/
def transform_index (q : Query) (i : Nat) (from_form to_form : TextForm) :
    Except Err Nat :=
  if i < formLength q from_form then
    match from_form, to_form with
    | .raw, .raw | .processed, .processed | .normalized, .normalized => .ok i
    | .raw, .processed | .processed, .raw => .ok i
    | .raw, .normalized | .processed, .normalized => .ok (forwardIdx q i)
    | .normalized, .raw | .normalized, .processed =>
      match backwardIdx q i with
      | some r => .ok r
      | none => .error .outOfRangeIndex
  else .error .outOfRangeIndex

/-- Modelled from the spec: `Query.transform_span` applies `transform_index`
to both endpoints independently and returns the new span; no additional
adjustment. -/
def transform_span (q : Query) (s : Span) (from_form to_form : TextForm) :
    Except Err Span := do
  let a ← transform_index q s.start from_form to_form
  let b ← transform_index q s.«end» from_form to_form
  pure ⟨a, b⟩

/-- Modelled from the spec: inclusive slicing of a text over a span. -/
def sliceIncl (cs : List Char) (s : Span) : List Char :=
  (cs.drop s.start).take (s.«end» + 1 - s.start)

/-- Modelled from the spec: `QueryEntity.from_query`: given a span in
NORMALIZED coordinates, derive the raw-form span via the transform, slice the
raw text over the inclusive range for the literal entity text, and build the
`QueryEntity` with the given type and role. -/
def QueryEntity.from_query (q : Query) (normalized_span : Span)
    (entity_type : String) (role : Option String := none) :
    Except Err QueryEntity := do
  let raw_span ← transform_span q normalized_span .normalized .raw
  let etext := String.mk (sliceIncl q.text raw_span)
  pure { entity_type := (entity_type, entity_type, role.getD "")
         span := raw_span
         normalized_span := normalized_span
         entity := ⟨etext, entity_type, role, none, some etext⟩ }

/-- Modelled from the spec: the external system-entity resolver interface:
given the normalized text and the time-zone/timestamp context, it returns
system-entity candidates as spans in NORMALIZED coordinates paired with
`Entity` payloads. -/
def Resolver : Type :=
  List Char → Option String → Option Nat → List (Span × Entity)

/-- Modelled from the spec: wrapping of a resolver candidate as a
`QueryEntity`: the raw-form span is derived from its normalized span through
the query's transform. -/
def sysCandidate (q : Query) (s : Span) (e : Entity) : Except Err QueryEntity := do
  let raw_span ← transform_span q s .normalized .raw
  pure { entity_type := (e.entity_type, e.entity_type, "system")
         span := raw_span
         normalized_span := s
         entity := e }

/-- Modelled from the spec: `create_query`: builds the Query from raw text and
context, invoking the system-entity resolver on the normalized text to
populate the candidates; a failure while building candidates fails
construction rather than yielding a partially built Query. -/
def create_query (resolver : Resolver) (text : List Char)
    (time_zone : Option String := none) (timestamp : Option Nat := none) :
    Except Err Query :=
  let q0 : Query := ⟨text, time_zone, timestamp, []⟩
  match (resolver (normalizedOf text) time_zone timestamp).mapM
      (fun p => sysCandidate q0 p.1 p.2) with
  | .ok ces => .ok { q0 with system_entity_candidates := ces }
  | .error er => .error er

/-- Modelled from the spec: `Query.__eq__`: two Query objects are equal iff
their raw text and context (time zone, timestamp) are equal; derived fields
are deterministic functions of these and are excluded from the comparison. -/
def queryEq (a b : Query) : Bool :=
  a.text == b.text && a.time_zone == b.time_zone && a.timestamp == b.timestamp

/-- A resolver returning no candidates (valid, non-error outcome). -/
def emptyResolver : Resolver := fun _ _ _ => []

/-- Modelled from the spec: fixed UTC offsets, in minutes, of the time zones
exercised by the tests; the external resolver is out of scope and
`America/Bahia` is always -3 (no daylight savings time). -/
def tzOffsetMinutes : String → Option Int
  | "America/Bahia" => some (-180)
  | "UTC" => some 0
  | _ => none

/-- Two-digit zero-padded rendering of a small number. -/
def pad2 (n : Nat) : String :=
  if n < 10 then "0" ++ toString n else toString n

/-- Modelled from the spec: ISO-8601 rendering of a UTC offset in minutes;
zero renders as `Z`. -/
def formatOffset (m : Int) : String :=
  if m = 0 then "Z"
  else (if m < 0 then "-" else "+") ++ pad2 (m.natAbs / 60) ++ ":" ++ pad2 (m.natAbs % 60)

/-- Modelled from the spec: the resolved value string for noon of the current
date in the requested zone: the date, the local time `12:00:00.000` and the
zone's offset. -/
def noonValue (currentDate : String) (off : Int) : String :=
  currentDate ++ ("T12:00:00.000" ++ formatOffset off)

/-- Modelled from the spec: the external system-entity resolver, absent from
the source tree, restricted to the date/time behavior the spec pins down: on
the normalized text of `Today at noon` it returns exactly one candidate whose
resolved value is noon of the current date expressed in the requested time
zone (the resolver's default zone, UTC, applies when none is given).
`currentDate` abstracts the resolver's anchoring to the current time. -/
def systemResolver (currentDate : String) : Resolver := fun norm tz _ts =>
  if norm = "today at noon".toList then
    [(⟨0, 12⟩,
      ⟨"today at noon", "sys_time", none,
       some (.dict [("value", noonValue currentDate ((tz.bind tzOffsetMinutes).getD 0))]),
       some "today at noon"⟩)]
  else []

/-- The resolved value string of a query's first system-entity candidate. -/
def firstCandidateValue (q : Query) : Option String :=
  match q.system_entity_candidates with
  | c :: _ =>
    match c.entity.value with
    | some (.dict fields) => fields.lookup "value"
    | _ => none
  | [] => none

/- Heap model of Python object graphs, for `components/_config.py`.
Configuration values are object trees; aliasing and `copy.deepcopy` are made
explicit through a heap of nodes addressed by allocation index. -/

/-- A pure configuration value: an object tree with string atoms at the
leaves.  Dictionaries and lists are encoded as right-nested pair chains via
the helpers below. -/
inductive JVal where
  | atom : String → JVal
  | node : JVal → JVal → JVal
deriving DecidableEq

/-- A heap cell: either an atom or an internal node holding the addresses of
its two children. -/
inductive HNode where
  | atomN : String → HNode
  | nodeN : Nat → Nat → HNode
deriving DecidableEq

/-- A heap: cells indexed by allocation order; allocation appends. -/
abbrev Heap : Type := List HNode

/-- The allocation level of a heap. -/
def Heap.size (h : Heap) : Nat := List.length h

/-- Cell lookup. -/
def Heap.cell (h : Heap) (a : Nat) : Option HNode := List.get? h a

/-- In-place update of one cell (a Python mutation of one object). -/
def Heap.write (h : Heap) (a : Nat) (n : HNode) : Heap := List.set h a n

/-- Stores a pure value into the heap, allocating fresh cells for every node
(children first); returns the extended heap and the root's address. -/
def store : JVal → Heap → Heap × Nat
  | .atom s, h => (h ++ [.atomN s], h.size)
  | .node l r, h =>
    let hl := store l h
    let hr := store r hl.1
    (hr.1 ++ [.nodeN hl.2 hr.2], hr.1.size)

/-- Reads the pure value rooted at an address, following child addresses;
fuelled to stay total on arbitrary heaps. -/
def readF : Nat → Heap → Nat → Option JVal
  | 0, _, _ => none
  | Nat.succ f, h, a =>
    (h.cell a).bind (fun n =>
      match n with
      | .atomN s => some (.atom s)
      | .nodeN x y =>
        (readF f h x).bind (fun l => (readF f h y).map (fun r => .node l r)))

/-- The value an address denotes: some fuel suffices to read it. -/
def Decodes (h : Heap) (a : Nat) (v : JVal) : Prop :=
  ∃ f, readF f h a = some v

/-- The tree height of a pure value (fuel sufficient to read it back). -/
def depth : JVal → Nat
  | .atom _ => 1
  | .node l r => 1 + max (depth l) (depth r)

/-- `copy.deepcopy`: read the object graph rooted at `a` as a pure value and
re-store it entirely in fresh cells. -/
def deepcopy (h : Heap) (a : Nat) : Option (Heap × Nat) :=
  (readF h.size h a).map (fun v => store v h)

/-- Builds a dictionary value out of key/value pairs, as a right-nested chain
of nodes ended by a sentinel atom. -/
def jdict : List (String × JVal) → JVal
  | [] => .atom "dict-nil"
  | (k, v) :: rest => .node (.node (.atom k) v) (jdict rest)

/-- Builds a list value, as a right-nested chain of nodes ended by a sentinel
atom. -/
def jlist : List JVal → JVal
  | [] => .atom "list-nil"
  | v :: rest => .node v (jlist rest)

/-- A string leaf. -/
def jstr (s : String) : JVal := .atom s

/-- An integer leaf. -/
def jint (n : Int) : JVal := .atom (toString n)

/-- A numeric literal leaf kept in source notation. -/
def jnum (s : String) : JVal := .atom s

/-- A boolean leaf. -/
def jbool (b : Bool) : JVal := .atom (toString b)

/-- `DEFAULT_DOMAIN_CLASSIFIER_CONFIG` of `components/_config.py`. -/
def DEFAULT_DOMAIN_CLASSIFIER_CONFIG : JVal := jdict [
  ("model_type", jstr "text"),
  ("model_settings", jdict [
    ("classifier_type", jstr "logreg")]),
  ("param_selection", jdict [
    ("type", jstr "k-fold"),
    ("k", jint 10),
    ("grid", jdict [
      ("fit_intercept", jlist [jbool true, jbool false]),
      ("C", jlist [jint 10, jint 100, jint 1000, jint 10000, jint 100000])])]),
  ("features", jdict [
    ("bag-of-words", jdict [
      ("lengths", jlist [jint 1])]),
    ("freq", jdict [("bins", jint 5)]),
    ("in-gaz", jdict [])])]

/-- `DEFAULT_INTENT_CLASSIFIER_CONFIG` of `components/_config.py`. -/
def DEFAULT_INTENT_CLASSIFIER_CONFIG : JVal := jdict [
  ("model_type", jstr "text"),
  ("model_settings", jdict [
    ("classifier_type", jstr "logreg")]),
  ("param_selection", jdict [
    ("type", jstr "k-fold"),
    ("k", jint 10),
    ("grid", jdict [
      ("fit_intercept", jlist [jbool true, jbool false]),
      ("C", jlist [jnum "0.01", jint 1, jint 100, jint 10000, jint 1000000]),
      ("class_bias", jlist [jint 1, jnum "0.7", jnum "0.3", jint 0])])]),
  ("features", jdict [
    ("bag-of-words", jdict [
      ("lengths", jlist [jint 1])]),
    ("in-gaz", jdict []),
    ("freq", jdict [("bins", jint 5)]),
    ("length", jdict [])])]

/-- `DEFAULT_ENTITY_RECOGNIZER_CONFIG` of `components/_config.py`. -/
def DEFAULT_ENTITY_RECOGNIZER_CONFIG : JVal := jdict [
  ("model_type", jstr "tagger"),
  ("label_type", jstr "entities"),
  ("model_settings", jdict [
    ("classifier_type", jstr "memm"),
    ("tag_scheme", jstr "IOB"),
    ("feature_scaler", jstr "max-abs")]),
  ("param_selection", jdict [
    ("type", jstr "k-fold"),
    ("k", jint 5),
    ("scoring", jstr "accuracy"),
    ("grid", jdict [
      ("penalty", jlist [jstr "l1", jstr "l2"]),
      ("C", jlist [jnum "0.01", jint 1, jint 100, jint 10000, jint 1000000,
                   jint 100000000])])]),
  ("features", jdict [
    ("bag-of-words-seq", jdict [
      ("ngram_lengths_to_start_positions", jdict [
        ("1", jlist [jint (-2), jint (-1), jint 0, jint 1, jint 2]),
        ("2", jlist [jint (-2), jint (-1), jint 0, jint 1])])]),
    ("in-gaz-span-seq", jdict []),
    ("sys-candidates-seq", jdict [
      ("start_positions", jlist [jint (-1), jint 0, jint 1])])])]

/-- `DEFAULT_ENTITY_RESOLVER_CONFIG` of `components/_config.py`. -/
def DEFAULT_ENTITY_RESOLVER_CONFIG : JVal := jdict [
  ("model_type", jstr "text_relevance")]

/-- `DEFAULT_ROLE_CLASSIFIER_CONFIG` of `components/_config.py`. -/
def DEFAULT_ROLE_CLASSIFIER_CONFIG : JVal := jdict [
  ("model_type", jstr "text"),
  ("model_settings", jdict [
    ("classifier_type", jstr "logreg")]),
  ("params", jdict [
    ("C", jint 100),
    ("penalty", jstr "l1")]),
  ("features", jdict [
    ("bag-of-words-before", jdict [
      ("ngram_lengths_to_start_positions", jdict [
        ("1", jlist [jint (-2), jint (-1)]),
        ("2", jlist [jint (-2), jint (-1)])])]),
    ("bag-of-words-after", jdict [
      ("ngram_lengths_to_start_positions", jdict [
        ("1", jlist [jint 0, jint 1]),
        ("2", jlist [jint 0, jint 1])])]),
    ("other-entities", jdict [])])]

/-- `CONFIG_DEPRECATION_MAPPING` of `components/_config.py`. -/
def CONFIG_DEPRECATION_MAPPING : String → Option String
  | "DOMAIN_CLASSIFIER_CONFIG" => some "DOMAIN_MODEL_CONFIG"
  | "INTENT_CLASSIFIER_CONFIG" => some "INTENT_MODEL_CONFIG"
  | "ENTITY_RECOGNIZER_CONFIG" => some "ENTITY_MODEL_CONFIG"
  | "ROLE_CLASSIFIER_CONFIG" => some "ROLE_MODEL_CONFIG"
  | "ENTITY_RESOLVER_CONFIG" => some "ENTITY_RESOLUTION_CONFIG"
  | "get_entity_recognizer_config" => some "get_entity_model_config"
  | "get_intent_classifier_config" => some "get_intent_model_config"
  | "get_entity_resolver_config" => some "get_entity_resolution_model_config"
  | "get_role_classifier_config" => some "get_role_model_config"
  | _ => none

/-- The provider-function name per classifier type (the `func_name` table of
`get_classifier_config`). -/
def funcNameOf : String → Option String
  | "intent" => some "get_intent_classifier_config"
  | "entity" => some "get_entity_recognizer_config"
  | "entity_resolution" => some "get_entity_resolver_config"
  | "role" => some "get_role_classifier_config"
  | _ => none

/-- The provider-call arguments per classifier type (the `func_args` table and
the `raw_args` selection of `get_classifier_config`). -/
def funcArgsOf (clf_type : String) (domain intent entity : Option String) :
    List (String × Option String) :=
  match clf_type with
  | "intent" => [("domain", domain)]
  | "entity" => [("domain", domain), ("intent", intent)]
  | "entity_resolution" =>
    [("domain", domain), ("intent", intent), ("entity", entity)]
  | "role" => [("domain", domain), ("intent", intent), ("entity", entity)]
  | _ => []

/-- The module attribute name per classifier type (the `attr_name` table of
`get_classifier_config`; a lookup miss is a `KeyError`). -/
def attrNameOf : String → Option String
  | "domain" => some "DOMAIN_CLASSIFIER_CONFIG"
  | "intent" => some "INTENT_CLASSIFIER_CONFIG"
  | "entity" => some "ENTITY_RECOGNIZER_CONFIG"
  | "entity_resolution" => some "ENTITY_RESOLVER_CONFIG"
  | "role" => some "ROLE_CLASSIFIER_CONFIG"
  | _ => none

/-- The application's loaded `config.py` module, as consumed by
`get_classifier_config`: provider functions and configuration attributes are
looked up by name (`getattr`); a provider is modelled as a deterministic
function from its argument list to the address of its result (`none` models a
call that raises). -/
structure ConfigModule where
  func : String → Option (List (String × Option String) → Option Nat)
  attr : String → Option Nat

/-- The heap addresses at which the module-level `DEFAULT_*_CONFIG` constants
of `components/_config.py` live. -/
structure Defaults where
  domain : Nat
  intent : Nat
  entity : Nat
  entity_resolution : Nat
  role : Nat

/-- The default-constant address per classifier type (the dictionary inside
`_get_default_classifier_config`; a lookup miss is a `KeyError`). -/
def defaultAddr (d : Defaults) : String → Option Nat
  | "domain" => some d.domain
  | "intent" => some d.intent
  | "entity" => some d.entity
  | "entity_resolution" => some d.entity_resolution
  | "role" => some d.role
  | _ => none

/-- `_get_default_classifier_config` of `components/_config.py`:
`copy.deepcopy` of the selected module-level default constant. -/
def get_default_classifier_config (h : Heap) (d : Defaults) (clf_type : String) :
    Option (Heap × Nat) :=
  (defaultAddr d clf_type).bind (deepcopy h)

/-- The provider-function result of `get_classifier_config`: try the current
provider name via `getattr`, fall back to the deprecated name, and call it;
`none` stands for no provider found or a provider call that raised (both fall
through to the attribute path). -/
def providerResult (m : ConfigModule) (clf_type : String)
    (domain intent entity : Option String) : Option Nat :=
  match funcNameOf clf_type with
  | none => none
  | some fn =>
    match m.func fn with
    | some f => f (funcArgsOf clf_type domain intent entity)
    | none =>
      match (CONFIG_DEPRECATION_MAPPING fn).bind m.func with
      | some f => f (funcArgsOf clf_type domain intent entity)
      | none => none

/-- `get_classifier_config` of `components/_config.py`.  `module` is the
result of `_get_config_module` (`none` models the OSError/IOError of a missing
app configuration file).  Every successful path returns a `copy.deepcopy`:
of the provider's result, of the module attribute (current or deprecated
name), or of the workbench default. -/
def get_classifier_config (h : Heap) (d : Defaults) (module : Option ConfigModule)
    (clf_type : String) (domain intent entity : Option String) :
    Option (Heap × Nat) :=
  match module with
  | none => get_default_classifier_config h d clf_type
  | some m =>
    match providerResult m clf_type domain intent entity with
    | some a => deepcopy h a
    | none =>
      match attrNameOf clf_type with
      | none => none
      | some an =>
        match m.attr an with
        | some a => deepcopy h a
        | none =>
          match (CONFIG_DEPRECATION_MAPPING an).bind m.attr with
          | some a => deepcopy h a
          | none => get_default_classifier_config h d clf_type

/-- The address `get_classifier_config` deep-copies from, determined by the
module and the arguments alone (independent of the heap). -/
def configSource (d : Defaults) (module : Option ConfigModule)
    (clf_type : String) (domain intent entity : Option String) : Option Nat :=
  match module with
  | none => defaultAddr d clf_type
  | some m =>
    match providerResult m clf_type domain intent entity with
    | some a => some a
    | none =>
      match attrNameOf clf_type with
      | none => none
      | some an =>
        match m.attr an with
        | some a => some a
        | none =>
          match (CONFIG_DEPRECATION_MAPPING an).bind m.attr with
          | some a => some a
          | none => defaultAddr d clf_type

/-- Whether a fallible computation of the core succeeded. -/
def exceptOk {α : Type} : Except Err α → Bool
  | .ok _ => true
  | .error _ => false

/-- A small fixed module heap used to instantiate the configuration theorems:
a single stored default value. -/
def tinyVal : JVal := jdict [("model_type", jstr "text_relevance")]

/-- The heap after storing `tinyVal` into the empty heap. -/
def tinyHeap : Heap := (store tinyVal []).1

/-- A small fixed query used to instantiate generic transform theorems. -/
def qW : Query := ⟨"ab cd".toList, none, none, []⟩

/-- The raw text of the entity-extraction test case, built around an
apostrophe: `!!Connect me with Paul's meeting room please.`. -/
def paulText : List Char :=
  "!!Connect me with Paul".toList ++ [apos] ++ "s meeting room please.".toList

/-- Fixture span for the entity-equality claim. -/
def spanW : Span := ⟨0, 5⟩

/-- Fixture normalized span for the entity-equality claim. -/
def nspanW : Span := ⟨0, 0⟩

/-- Fixture entity payload for the entity-equality claim. -/
def entW : Entity := ⟨"text", "type", some "role", some (.s "value"), some "display"⟩

/-- The fixed addresses used to instantiate the configuration theorems: all
five defaults at the root of `tinyHeap`. -/
def tinyDefaults : Defaults := ⟨4, 4, 4, 4, 4⟩

/-- The heap after a deep copy of `tinyVal` out of `tinyHeap`. -/
def tinyHeap2 : Heap := (store tinyVal tinyHeap).1

theorem classifyGo_length (prev : Option Char) (cs : List Char) :
    (classifyGo prev cs).length = cs.length := by
  induction cs generalizing prev with
  | nil => rfl
  | cons c rest ih => simp [classifyGo, ih]

theorem resolveSpaces_length (lk : Option Char) (l : List (Option Char)) :
    (resolveSpaces lk l).length = l.length := by
  induction l generalizing lk with
  | nil => rfl
  | cons o rest ih =>
    cases o with
    | none => simp [resolveSpaces, ih]
    | some c =>
      simp only [resolveSpaces]
      split
      · split <;> simp [ih]
      · simp [ih]

theorem emitsOf_length (cs : List Char) : (emitsOf cs).length = cs.length := by
  rw [emitsOf, resolveSpaces_length, classifyGo_length]

theorem countKept_cons (o : Option Char) (l : List (Option Char)) :
    countKept (o :: l) = (if o.isSome then 1 else 0) + countKept l := by
  cases o <;> (simp [countKept, List.countP_cons]; try omega)

theorem length_filterMap_id (l : List (Option Char)) :
    (l.filterMap id).length = countKept l := by
  induction l with
  | nil => rfl
  | cons o rest ih =>
    cases o <;> (simp [List.filterMap_cons, countKept_cons, ih]; try omega)

theorem countKept_take_exists (l : List (Option Char)) (j : Nat)
    (hj : j < countKept l) : ∃ i, i < l.length ∧ countKept (l.take i) = j := by
  induction l generalizing j with
  | nil => simp [countKept] at hj
  | cons o rest ih =>
    cases o with
    | some c =>
      cases j with
      | zero => exact ⟨0, by simp, by simp [countKept]⟩
      | succ j' =>
        have hj' : j' < countKept rest := by
          rw [countKept_cons] at hj; simp at hj; omega
        obtain ⟨i, hi, hc⟩ := ih j' hj'
        refine ⟨i + 1, by simpa using hi, ?_⟩
        simp [List.take_succ_cons, countKept_cons, hc]; omega
    | none =>
      have hj' : j < countKept rest := by
        rw [countKept_cons] at hj; simpa using hj
      obtain ⟨i, hi, hc⟩ := ih j hj'
      refine ⟨i + 1, by simpa using hi, ?_⟩
      simp [List.take_succ_cons, countKept_cons, hc]

theorem normalized_length_eq (q : Query) :
    q.normalized_text.length = countKept q.emits := by
  rw [Query.normalized_text, normalizedOf, length_filterMap_id]; rfl

theorem backwardIdx_total (q : Query) (j : Nat)
    (hj : j < q.normalized_text.length) : ∃ r, backwardIdx q j = some r := by
  have hlen : q.emits.length = q.text.length := emitsOf_length q.text
  have hcount := normalized_length_eq q
  obtain ⟨i, hi, hc⟩ := countKept_take_exists q.emits j (by omega)
  have hmem : ∃ x, x ∈ List.range q.text.length ∧ (fun i => forwardIdx q i == j) x = true := by
    refine ⟨i, List.mem_range.2 (by omega), ?_⟩
    simp [forwardIdx, hc]
  have hsome := List.find?_isSome.2 hmem
  exact Option.isSome_iff_exists.1 hsome

theorem transform_index_in_bounds (q : Query) (i : Nat) (f t : TextForm)
    (h : i < formLength q f) : ∃ r, transform_index q i f t = .ok r := by
  unfold transform_index
  rw [if_pos h]
  cases f <;> cases t
  case normalized.raw =>
    obtain ⟨r, hr⟩ := backwardIdx_total q i h
    exact ⟨r, by rw [hr]⟩
  case normalized.processed =>
    obtain ⟨r, hr⟩ := backwardIdx_total q i h
    exact ⟨r, by rw [hr]⟩
  all_goals first | exact ⟨i, rfl⟩ | exact ⟨forwardIdx q i, rfl⟩

theorem transform_index_oob (q : Query) (i : Nat) (f t : TextForm)
    (h : ¬ i < formLength q f) :
    transform_index q i f t = .error .outOfRangeIndex := by
  unfold transform_index
  rw [if_neg h]

theorem transform_span_in_bounds (q : Query) (s : Span) (f t : TextForm)
    (h1 : s.start < formLength q f) (h2 : s.«end» < formLength q f) :
    ∃ r, transform_span q s f t = .ok r := by
  obtain ⟨r1, hr1⟩ := transform_index_in_bounds q s.start f t h1
  obtain ⟨r2, hr2⟩ := transform_index_in_bounds q s.«end» f t h2
  exact ⟨⟨r1, r2⟩, by simp [transform_span, hr1, hr2]; rfl⟩

theorem transform_span_oob (q : Query) (s : Span) (f t : TextForm)
    (h : ¬ (s.start < formLength q f ∧ s.«end» < formLength q f)) :
    transform_span q s f t = .error .outOfRangeIndex := by
  by_cases h1 : s.start < formLength q f
  · have h2 : ¬ s.«end» < formLength q f := fun hh => h ⟨h1, hh⟩
    obtain ⟨r1, hr1⟩ := transform_index_in_bounds q s.start f t h1
    simp [transform_span, hr1, transform_index_oob q s.«end» f t h2]
    rfl
  · simp [transform_span, transform_index_oob q s.start f t h1]
    rfl

/-- C6: for every Query, `transform_index` and `transform_span` fail with an
OutOfRange error exactly when the given index or span lies outside the bounds
of the source form, and never fail otherwise — in particular not in the
many-to-one collapsing case, which the leftmost-candidate tie-break resolves
deterministically. -/
theorem c6_transform_failure_semantics (q : Query) (i : Nat) (s : Span)
    (f t : TextForm) :
    (exceptOk (transform_index q i f t) = true ↔ i < formLength q f) ∧
    (∀ e, transform_index q i f t = .error e → e = .outOfRangeIndex) ∧
    (exceptOk (transform_span q s f t) = true ↔
      (s.start < formLength q f ∧ s.«end» < formLength q f)) ∧
    (∀ e, transform_span q s f t = .error e → e = .outOfRangeIndex) := by
  refine ⟨⟨?_, ?_⟩, ?_, ⟨?_, ?_⟩, ?_⟩
  · intro hok
    by_contra hb
    rw [transform_index_oob q i f t hb] at hok
    simp [exceptOk] at hok
  · intro hb
    obtain ⟨r, hr⟩ := transform_index_in_bounds q i f t hb
    rw [hr]; rfl
  · intro e he
    by_cases hb : i < formLength q f
    · obtain ⟨r, hr⟩ := transform_index_in_bounds q i f t hb
      rw [hr] at he; cases he
    · rw [transform_index_oob q i f t hb] at he
      injection he with h'
      exact h'.symm
  · intro hok
    by_contra hb
    rw [transform_span_oob q s f t hb] at hok
    simp [exceptOk] at hok
  · intro hb
    obtain ⟨r, hr⟩ := transform_span_in_bounds q s f t hb.1 hb.2
    rw [hr]; rfl
  · intro e he
    by_cases hb : s.start < formLength q f ∧ s.«end» < formLength q f
    · obtain ⟨r, hr⟩ := transform_span_in_bounds q s f t hb.1 hb.2
      rw [hr] at he; cases he
    · rw [transform_span_oob q s f t hb] at he
      injection he with h'
      exact h'.symm

theorem c6_transform_failure_semantics_witness :
    (exceptOk (transform_index qW 1 .raw .normalized) = true) ∧
    (Err.outOfRangeIndex = Err.outOfRangeIndex) := by
  refine ⟨?_, ?_⟩
  · exact (c6_transform_failure_semantics qW 1 ⟨0, 1⟩ .raw .normalized).1.mpr
      (by decide)
  · exact (c6_transform_failure_semantics qW 99 ⟨0, 1⟩ .raw .normalized).2.1
      Err.outOfRangeIndex rfl

/-- C7: `transform_span` with `from_form == to_form` is the identity on every
in-bounds span. -/
theorem c7_transform_span_same_form (q : Query) (s : Span) (f : TextForm)
    (h1 : s.start < formLength q f) (h2 : s.«end» < formLength q f) :
    transform_span q s f f = .ok s := by
  have e1 : transform_index q s.start f f = .ok s.start := by
    unfold transform_index
    rw [if_pos h1]
    cases f <;> rfl
  have e2 : transform_index q s.«end» f f = .ok s.«end» := by
    unfold transform_index
    rw [if_pos h2]
    cases f <;> rfl
  simp [transform_span, e1, e2]
  rfl

theorem c7_transform_span_same_form_witness :
    (Span.start ⟨1, 3⟩ < formLength qW .raw) ∧
    (Span.«end» ⟨1, 3⟩ < formLength qW .raw) ∧
    transform_span qW ⟨1, 3⟩ .raw .raw = .ok ⟨1, 3⟩ := by
  refine ⟨by decide, by decide, ?_⟩
  exact c7_transform_span_same_form qW ⟨1, 3⟩ .raw (by decide) (by decide)

/-- C1: for the Query built from raw text `Test: One. 2. 3.`, transform_index
maps RAW index 6 (character `O`) to PROCESSED index 6 and NORMALIZED index 5
(character `o`), and the backward transform of NORMALIZED index 5 returns
PROCESSED index 6 and RAW index 6. -/
theorem c1_transform_index_values :
    (create_query emptyResolver "Test: One. 2. 3.".toList none none).map
      (fun q => (q.text.get? 6,
                 q.processed_text.get? 6,
                 transform_index q 6 .raw .processed,
                 transform_index q 6 .raw .normalized,
                 q.normalized_text.get? 5,
                 transform_index q 5 .normalized .processed,
                 transform_index q 5 .normalized .raw))
    = .ok (some 'O', some 'O', .ok 6, .ok 5, some 'o', .ok 6, .ok 6) := by
  rfl

/-- C2: normalization of `Test: 1. 2. 3.` yields normalized text
`test 1 2 3` with the processed text unchanged from the raw text, and
normalization of `((()))` yields the empty normalized text. -/
theorem c2_normalization_values :
    ((create_query emptyResolver "Test: 1. 2. 3.".toList none none).map
       (fun q => (q.processed_text, q.normalized_text))
     = .ok ("Test: 1. 2. 3.".toList, "test 1 2 3".toList)) ∧
    ((create_query emptyResolver "((()))".toList none none).map
       (fun q => (q.processed_text, q.normalized_text))
     = .ok ("((()))".toList, ([] : List Char))) := by
  exact ⟨rfl, rfl⟩

/-- C3: for the Query built from raw text
`!!Connect me with Paul's meeting room please.`, `QueryEntity.from_query`
with normalized span (16, 19) produces a QueryEntity whose raw-form span is
(18, 21). -/
theorem c3_entity_from_query_raw_span :
    (Except.bind (create_query emptyResolver paulText none none)
       (fun q => QueryEntity.from_query q ⟨16, 19⟩ "test_type")).map
      (fun e => e.span)
    = .ok ⟨18, 21⟩ := by
  rfl

/-- C4: a NestedEntity and a QueryEntity built from the same type triple,
spans and Entity payload are equal in both directions (with disequality false
both ways) regardless of which operand is the NestedEntity; if the first
element of the type triple differs while spans and payload are identical,
they are unequal in both directions. -/
theorem c4_cross_variant_entity_equality
    (t : String × String × String) (s ns : Span) (e : Entity) (p : Option Span)
    (f1 f2 : String) (rest : String × String) (hne : f1 ≠ f2) :
    (entityEq (.ne ⟨t, s, ns, e, p⟩) (.qe ⟨t, s, ns, e⟩) = true ∧
     entityEq (.qe ⟨t, s, ns, e⟩) (.ne ⟨t, s, ns, e, p⟩) = true ∧
     entityNe (.ne ⟨t, s, ns, e, p⟩) (.qe ⟨t, s, ns, e⟩) = false ∧
     entityNe (.qe ⟨t, s, ns, e⟩) (.ne ⟨t, s, ns, e, p⟩) = false) ∧
    (entityEq (.ne ⟨(f1, rest), s, ns, e, p⟩) (.qe ⟨(f2, rest), s, ns, e⟩) = false ∧
     entityEq (.qe ⟨(f2, rest), s, ns, e⟩) (.ne ⟨(f1, rest), s, ns, e, p⟩) = false ∧
     entityNe (.ne ⟨(f1, rest), s, ns, e, p⟩) (.qe ⟨(f2, rest), s, ns, e⟩) = true ∧
     entityNe (.qe ⟨(f2, rest), s, ns, e⟩) (.ne ⟨(f1, rest), s, ns, e, p⟩) = true) := by
  constructor
  · simp [entityEq, entityNe, entityKey]
  · simp [entityEq, entityNe, entityKey, hne, Ne.symm hne]

theorem c4_cross_variant_entity_equality_witness :
    (("Entity123" : String) ≠ "Entity") ∧
    ((entityEq (.ne ⟨("Entity", "Entity", "entity"), spanW, nspanW, entW, none⟩)
               (.qe ⟨("Entity", "Entity", "entity"), spanW, nspanW, entW⟩) = true ∧
      entityEq (.qe ⟨("Entity", "Entity", "entity"), spanW, nspanW, entW⟩)
               (.ne ⟨("Entity", "Entity", "entity"), spanW, nspanW, entW, none⟩) = true ∧
      entityNe (.ne ⟨("Entity", "Entity", "entity"), spanW, nspanW, entW, none⟩)
               (.qe ⟨("Entity", "Entity", "entity"), spanW, nspanW, entW⟩) = false ∧
      entityNe (.qe ⟨("Entity", "Entity", "entity"), spanW, nspanW, entW⟩)
               (.ne ⟨("Entity", "Entity", "entity"), spanW, nspanW, entW, none⟩) = false) ∧
     (entityEq (.ne ⟨("Entity123", "Entity", "entity"), spanW, nspanW, entW, none⟩)
               (.qe ⟨("Entity", "Entity", "entity"), spanW, nspanW, entW⟩) = false ∧
      entityEq (.qe ⟨("Entity", "Entity", "entity"), spanW, nspanW, entW⟩)
               (.ne ⟨("Entity123", "Entity", "entity"), spanW, nspanW, entW, none⟩) = false ∧
      entityNe (.ne ⟨("Entity123", "Entity", "entity"), spanW, nspanW, entW, none⟩)
               (.qe ⟨("Entity", "Entity", "entity"), spanW, nspanW, entW⟩) = true ∧
      entityNe (.qe ⟨("Entity", "Entity", "entity"), spanW, nspanW, entW⟩)
               (.ne ⟨("Entity123", "Entity", "entity"), spanW, nspanW, entW, none⟩) = true)) := by
  refine ⟨by decide, ?_⟩
  exact c4_cross_variant_entity_equality ("Entity", "Entity", "entity") spanW nspanW
    entW none "Entity123" "Entity" ("Entity", "entity") (by decide)

theorem create_query_fields (r : Resolver) (text : List Char)
    (tz : Option String) (ts : Option Nat) (q : Query)
    (h : create_query r text tz ts = .ok q) :
    q.text = text ∧ q.time_zone = tz ∧ q.timestamp = ts := by
  simp only [create_query] at h
  split at h
  · injection h with h'
    subst h'
    exact ⟨rfl, rfl, rfl⟩
  · cases h

/-- C5: two Query objects constructed from the same raw text and the same
(time zone, timestamp) context are equal; constructed from the same text but
differing time zones, they are unequal — `queryEq` compares only the text and
context, so derived fields are excluded from the comparison. -/
theorem c5_query_equality (r : Resolver) (text : List Char)
    (tz tz' : Option String) (ts : Option Nat) (qa qb : Query) :
    (create_query r text tz ts = .ok qa →
     create_query r text tz ts = .ok qb → queryEq qa qb = true) ∧
    (tz ≠ tz' →
     create_query r text tz ts = .ok qa →
     create_query r text tz' ts = .ok qb → queryEq qa qb = false) := by
  constructor
  · intro ha hb
    obtain ⟨ta, za, sa⟩ := create_query_fields r text tz ts qa ha
    obtain ⟨tb, zb, sb⟩ := create_query_fields r text tz ts qb hb
    simp [queryEq, ta, za, sa, tb, zb, sb]
  · intro hne ha hb
    obtain ⟨ta, za, sa⟩ := create_query_fields r text tz ts qa ha
    obtain ⟨tb, zb, sb⟩ := create_query_fields r text tz' ts qb hb
    simp [queryEq, ta, za, sa, tb, zb, sb, hne]

theorem c5_query_equality_witness :
    (queryEq ⟨"Hello. There.".toList, some "America/Los_Angeles", none, []⟩
             ⟨"Hello. There.".toList, some "America/Los_Angeles", none, []⟩ = true) ∧
    (queryEq ⟨"Hello. There.".toList, some "America/Los_Angeles", none, []⟩
             ⟨"Hello. There.".toList, some "America/Bahia", none, []⟩ = false) := by
  constructor
  · exact (c5_query_equality emptyResolver "Hello. There.".toList
      (some "America/Los_Angeles") (some "America/Bahia") none
      ⟨"Hello. There.".toList, some "America/Los_Angeles", none, []⟩
      ⟨"Hello. There.".toList, some "America/Los_Angeles", none, []⟩).1 rfl rfl
  · exact (c5_query_equality emptyResolver "Hello. There.".toList
      (some "America/Los_Angeles") (some "America/Bahia") none
      ⟨"Hello. There.".toList, some "America/Los_Angeles", none, []⟩
      ⟨"Hello. There.".toList, some "America/Bahia", none, []⟩).2
      (by decide) rfl rfl

/-- C8: iterating a Span yields exactly the inclusive integer sequence from
start to end: Span(3,5) yields [3,4,5], and in general the iteration has
length end+1-start, holds start+k at position k, and contains exactly the
integers between start and end inclusive. -/
theorem c8_span_iteration :
    (Span.iter ⟨3, 5⟩ = [3, 4, 5]) ∧
    (∀ s : Span, (Span.iter s).length = s.«end» + 1 - s.start) ∧
    (∀ s : Span, ∀ k : Nat, (Span.iter s).get? k =
       if k < s.«end» + 1 - s.start then some (s.start + k) else none) ∧
    (∀ s : Span, ∀ n : Nat, n ∈ Span.iter s ↔ (s.start ≤ n ∧ n ≤ s.«end»)) := by
  refine ⟨by decide, fun s => by simp [Span.iter], fun s k => ?_, fun s n => ?_⟩
  · by_cases hk : k < s.«end» + 1 - s.start
    · rw [if_pos hk, Span.iter, List.get?_eq_getElem?, List.getElem?_range' _ _ hk]
      simp
    · rw [if_neg hk, Span.iter, List.get?_eq_none.2]
      simp only [List.length_range']
      omega
  · rw [Span.iter]
    constructor
    · intro hm
      obtain ⟨i, hi, rfl⟩ := List.mem_range'.1 hm
      omega
    · intro hn
      exact List.mem_range'.2 ⟨n - s.start, by omega, by omega⟩

/-- C9: for the Query built from `Today at noon` with time zone
`America/Bahia`, exactly one system-entity candidate is produced and its
resolved value string ends in `T12:00:00.000-03:00`; with time zone `UTC`,
exactly one candidate is produced whose resolved value string ends in
`T12:00:00.000Z` (for every anchoring date `d` of the resolver). -/
theorem c9_time_zone_resolution (d : String) :
    ((create_query (systemResolver d) "Today at noon".toList
        (some "America/Bahia") none).map
       (fun q => (q.system_entity_candidates.length, firstCandidateValue q))
     = .ok (1, some (d ++ "T12:00:00.000-03:00"))) ∧
    ((create_query (systemResolver d) "Today at noon".toList
        (some "UTC") none).map
       (fun q => (q.system_entity_candidates.length, firstCandidateValue q))
     = .ok (1, some (d ++ "T12:00:00.000Z"))) := by
  constructor
  · have h : ("T12:00:00.000" ++ formatOffset (-180) : String) = "T12:00:00.000-03:00" := rfl
    rw [← h]
    rfl
  · have h : ("T12:00:00.000" ++ formatOffset 0 : String) = "T12:00:00.000Z" := rfl
    rw [← h]
    rfl

theorem cell_lt_of_some (h : Heap) (x : Nat) (n : HNode)
    (hc : h.cell x = some n) : x < h.size := by
  obtain ⟨hlt, -⟩ := List.get?_eq_some.1 hc
  exact hlt

theorem readF_agree (f : Nat) (h h2 : Heap)
    (hag : ∀ x n, h.cell x = some n → h2.cell x = some n) :
    ∀ a v, readF f h a = some v → readF f h2 a = some v := by
  induction f with
  | zero => intro a v hv; cases hv
  | succ f ih =>
    intro a v hv
    rw [readF] at hv ⊢
    cases hc : h.cell a with
    | none => rw [hc] at hv; cases hv
    | some n =>
      rw [hc] at hv
      rw [hag a n hc]
      simp only [Option.some_bind] at hv ⊢
      cases n with
      | atomN s => exact hv
      | nodeN x y =>
        simp only at hv ⊢
        cases hx : readF f h x with
        | none => rw [hx] at hv; cases hv
        | some l =>
          rw [hx] at hv
          rw [ih x l hx]
          simp only [Option.some_bind] at hv ⊢
          cases hy : readF f h y with
          | none => rw [hy] at hv; cases hv
          | some r =>
            rw [hy] at hv
            rw [ih y r hy]
            exact hv

theorem readF_fuel_mono (f f' : Nat) (h : Heap) (hle : f ≤ f') :
    ∀ a v, readF f h a = some v → readF f' h a = some v := by
  induction f generalizing f' with
  | zero => intro a v hv; cases hv
  | succ f ih =>
    intro a v hv
    cases f' with
    | zero => omega
    | succ f'' =>
      rw [readF] at hv ⊢
      cases hc : h.cell a with
      | none => rw [hc] at hv; cases hv
      | some n =>
        rw [hc] at hv
        simp only [Option.some_bind] at hv ⊢
        cases n with
        | atomN s => exact hv
        | nodeN x y =>
          simp only at hv ⊢
          cases hx : readF f h x with
          | none => rw [hx] at hv; cases hv
          | some l =>
            rw [hx] at hv
            rw [ih f'' (by omega) x l hx]
            simp only [Option.some_bind] at hv ⊢
            cases hy : readF f h y with
            | none => rw [hy] at hv; cases hv
            | some r =>
              rw [hy] at hv
              rw [ih f'' (by omega) y r hy]
              exact hv

theorem store_extend (v : JVal) : ∀ h : Heap, ∃ t, (store v h).1 = h ++ t := by
  induction v with
  | atom s => exact fun h => ⟨[.atomN s], rfl⟩
  | node l r ihl ihr =>
    intro h
    obtain ⟨t1, e1⟩ := ihl h
    obtain ⟨t2, e2⟩ := ihr (store l h).1
    refine ⟨t1 ++ (t2 ++ [.nodeN (store l h).2 (store r (store l h).1).2]), ?_⟩
    show (store r (store l h).1).1 ++ [.nodeN (store l h).2 (store r (store l h).1).2]
      = h ++ (t1 ++ (t2 ++ [.nodeN (store l h).2 (store r (store l h).1).2]))
    rw [e2, e1]
    simp [List.append_assoc]

theorem store_size_le (v : JVal) (h : Heap) : h.size ≤ (store v h).1.size := by
  obtain ⟨t, ht⟩ := store_extend v h
  simp [ht, Heap.size]

theorem store_read (v : JVal) : ∀ (h h2 : Heap),
    (∀ x n, h.size ≤ x → ((store v h).1).cell x = some n → h2.cell x = some n) →
    ∀ f, depth v ≤ f → readF f h2 (store v h).2 = some v := by
  induction v with
  | atom s =>
    intro h h2 hag f hf
    have hc : ((store (.atom s) h).1).cell h.size = some (.atomN s) := by
      show (h ++ [HNode.atomN s]).get? h.length = some (.atomN s)
      rw [List.get?_append_right (Nat.le_refl _)]
      simp
    have hc2 := hag h.size _ (Nat.le_refl _) hc
    cases f with
    | zero => simp [depth] at hf
    | succ f =>
      rw [readF]
      rw [show (store (.atom s) h).2 = h.size from rfl, hc2]
      rfl
  | node l r ihl ihr =>
    intro h h2 hag f hf
    obtain ⟨t1, e1⟩ := store_extend l h
    obtain ⟨t2, e2⟩ := store_extend r (store l h).1
    have hlen1 : h.length ≤ (store l h).1.length := by rw [e1]; simp
    have hlen2 : (store l h).1.length ≤ (store r (store l h).1).1.length := by
      rw [e2]; simp
    have hheap : (store (.node l r) h).1 =
        (store r (store l h).1).1 ++
          [.nodeN (store l h).2 (store r (store l h).1).2] := rfl
    have hroot : (store (.node l r) h).2 = (store r (store l h).1).1.length := rfl
    have hcell : ((store (.node l r) h).1).cell (store r (store l h).1).1.length =
        some (.nodeN (store l h).2 (store r (store l h).1).2) := by
      rw [hheap]
      show ((store r (store l h).1).1 ++ [_]).get? (store r (store l h).1).1.length
        = some _
      rw [List.get?_append_right (Nat.le_refl _)]
      simp
    have hc2 : h2.cell (store r (store l h).1).1.length =
        some (.nodeN (store l h).2 (store r (store l h).1).2) := by
      refine hag _ _ ?_ hcell
      show h.length ≤ _
      omega
    have hagr : ∀ x n, (store l h).1.size ≤ x →
        ((store r (store l h).1).1).cell x = some n → h2.cell x = some n := by
      intro x n hx hcx
      have hlt : x < (store r (store l h).1).1.length :=
        cell_lt_of_some _ _ _ hcx
      have hx' : (store l h).1.length ≤ x := hx
      refine hag x n (show h.length ≤ x by omega) ?_
      rw [hheap]
      show ((store r (store l h).1).1 ++ [_]).get? x = some n
      rw [List.get?_append hlt]
      exact hcx
    have hagl : ∀ x n, h.size ≤ x →
        ((store l h).1).cell x = some n → h2.cell x = some n := by
      intro x n hx hcx
      have hlt : x < (store l h).1.length := cell_lt_of_some _ _ _ hcx
      refine hag x n hx ?_
      rw [hheap]
      show ((store r (store l h).1).1 ++ [_]).get? x = some n
      rw [List.get?_append (by omega)]
      rw [e2]
      show ((store l h).1 ++ t2).get? x = some n
      rw [List.get?_append hlt]
      exact hcx
    cases f with
    | zero => simp [depth] at hf
    | succ f =>
      have hfl : depth l ≤ f := by simp [depth] at hf; omega
      have hfr : depth r ≤ f := by simp [depth] at hf; omega
      have hl := ihl h h2 hagl f hfl
      have hr := ihr (store l h).1 h2 hagr f hfr
      rw [readF, hroot, hc2]
      simp only [Option.some_bind]
      rw [hl, hr]
      rfl

theorem get_classifier_config_factor (h : Heap) (d : Defaults)
    (module : Option ConfigModule) (clf : String)
    (dom intent entity : Option String) :
    get_classifier_config h d module clf dom intent entity
      = (configSource d module clf dom intent entity).bind (deepcopy h) := by
  cases module with
  | none =>
    simp only [get_classifier_config, configSource, get_default_classifier_config]
  | some m =>
    simp only [get_classifier_config, configSource]
    cases hpr : providerResult m clf dom intent entity with
    | some a => simp [hpr]
    | none =>
      cases han : attrNameOf clf with
      | none => simp [hpr, han]
      | some an =>
        cases hma : m.attr an with
        | some a => simp [hpr, han, hma]
        | none =>
          cases hdep : (CONFIG_DEPRECATION_MAPPING an).bind m.attr with
          | some a => simp [hpr, han, hma, hdep]
          | none => simp [hpr, han, hma, hdep, get_default_classifier_config]

/-- C10: every configuration returned by `get_classifier_config` is a deep
copy sharing no structure with the module-level defaults or the config
module's attributes: mutating any cell of the freshly copied region leaves
every pre-existing object (the `DEFAULT_*_CONFIG` constants and the module
attributes) decoding unchanged, the returned configuration itself decodes
independently of every pre-existing cell, and a second call with the same
arguments returns an equal configuration. -/
theorem c10_classifier_config_deepcopy (h : Heap) (d : Defaults)
    (module : Option ConfigModule) (clf : String)
    (dom intent entity : Option String) (h' : Heap) (a' : Nat)
    (hcall : get_classifier_config h d module clf dom intent entity
      = some (h', a')) :
    (∀ b w, Decodes h b w → ∀ c n, h.size ≤ c → Decodes (h'.write c n) b w) ∧
    (∃ v, Decodes h' a' v ∧
      (∀ c n, c < h.size → Decodes (h'.write c n) a' v) ∧
      (∃ h2 a2,
        get_classifier_config h' d module clf dom intent entity = some (h2, a2) ∧
        Decodes h2 a2 v)) := by
  rw [get_classifier_config_factor] at hcall
  cases hsrc : configSource d module clf dom intent entity with
  | none => rw [hsrc] at hcall; cases hcall
  | some a =>
    rw [hsrc] at hcall
    simp only [Option.some_bind, deepcopy] at hcall
    cases hv : readF h.size h a with
    | none => rw [hv] at hcall; cases hcall
    | some v =>
      rw [hv] at hcall
      simp only [Option.map_some'] at hcall
      injection hcall with hpair
      rw [Prod.ext_iff] at hpair
      obtain ⟨e1, e2⟩ := hpair
      subst e1
      subst e2
      obtain ⟨t, hext⟩ := store_extend v h
      constructor
      · intro b w hbw c n hc
        obtain ⟨fb, hfb⟩ := hbw
        refine ⟨fb, readF_agree fb h _ ?_ b w hfb⟩
        intro x m hxm
        have hxlt : x < h.size := cell_lt_of_some h x m hxm
        show (List.set (store v h).1 c n).get? x = some m
        rw [List.get?_set_ne _ _ (show c ≠ x by omega)]
        show (store v h).1.get? x = some m
        rw [hext, List.get?_append hxlt]
        exact hxm
      · refine ⟨v, ?_, ?_, ?_⟩
        · exact ⟨depth v,
            store_read v h (store v h).1 (fun x n _ hc => hc) (depth v)
              (Nat.le_refl _)⟩
        · intro c n hc
          refine ⟨depth v,
            store_read v h (List.set (store v h).1 c n) ?_ (depth v)
              (Nat.le_refl _)⟩
          intro x m hx hxc
          show (List.set (store v h).1 c n).get? x = some m
          rw [List.get?_set_ne _ _ (show c ≠ x by omega)]
          exact hxc
        · rw [get_classifier_config_factor, hsrc]
          simp only [Option.some_bind, deepcopy]
          have step1 : readF h.size (store v h).1 a = some v := by
            refine readF_agree h.size h (store v h).1 ?_ a v hv
            intro x m hxm
            have hxlt : x < h.size := cell_lt_of_some h x m hxm
            show (store v h).1.get? x = some m
            rw [hext, List.get?_append hxlt]
            exact hxm
          have hv' : readF (store v h).1.size (store v h).1 a = some v :=
            readF_fuel_mono h.size (store v h).1.size (store v h).1
              (store_size_le v h) a v step1
          rw [hv']
          simp only [Option.map_some']
          refine ⟨(store v (store v h).1).1, (store v (store v h).1).2, rfl, ?_⟩
          exact ⟨depth v,
            store_read v (store v h).1 _ (fun x n _ hc => hc) (depth v)
              (Nat.le_refl _)⟩

theorem c10_classifier_config_deepcopy_witness :
    (∀ b w, Decodes tinyHeap b w →
      ∀ c n, tinyHeap.size ≤ c → Decodes (tinyHeap2.write c n) b w) ∧
    (∃ v, Decodes tinyHeap2 9 v ∧
      (∀ c n, c < tinyHeap.size → Decodes (tinyHeap2.write c n) 9 v) ∧
      (∃ h2 a2,
        get_classifier_config tinyHeap2 tinyDefaults none "domain" none none none
          = some (h2, a2) ∧
        Decodes h2 a2 v)) :=
  c10_classifier_config_deepcopy tinyHeap tinyDefaults none "domain"
    none none none tinyHeap2 9 rfl
